import Mathlib

/-!
Shallow embedding of the PRD Ticket Assistant core (`app.py`): the prompt
composition and answer folding performed in `index`, the model-reply cleaning
and JSON parsing performed in `get_ai_analysis` (Python `str.strip`,
`str.replace` and `json.loads` are modelled on `List Char`), and the
rendering / error propagation of the request handler.  Strings are modelled
as `List Char`; Python exceptions as an `Except` error channel.
-/

namespace PRD

/-! ### Characters that the source manipulates, named to keep literals tame -/

def btick : Char := Char.ofNat 96

def quoteC : Char := Char.ofNat 34

def backslashC : Char := Char.ofNat 92

def lbraceC : Char := Char.ofNat 123

def rbraceC : Char := Char.ofNat 125

def lbrackC : Char := Char.ofNat 91

def rbrackC : Char := Char.ofNat 93

def colonC : Char := Char.ofNat 58

def commaC : Char := Char.ofNat 44

def dotC : Char := Char.ofNat 46

/-! ### Python `str.strip` (no arguments): trim ASCII whitespace on both ends -/

/-- Characters removed by Python `str.strip()` (the ASCII ones). -/
def pyIsSpace (c : Char) : Bool :=
  c = ' ' || c = '\t' || c = '\n' || c = '\r' || c = Char.ofNat 11 || c = Char.ofNat 12

/-- Python `s.strip()`: drop leading and trailing whitespace. -/
def pyStrip (s : List Char) : List Char :=
  ((s.dropWhile pyIsSpace).reverse.dropWhile pyIsSpace).reverse

/-! ### Python `str.replace`: replace all non-overlapping occurrences, left to right -/

/-- Worker for `pyReplace`; `fuel` only bounds recursion depth and is set to the
input length by `pyReplace`, which fully processes the input (one unit of fuel
is spent per step, and every step consumes at least one character of a
non-empty pattern's input). -/
def replaceFuel (pat rep : List Char) : Nat → List Char → List Char
  | _, [] => []
  | 0, s => s
  | fuel + 1, c :: rest =>
    if pat.isPrefixOf (c :: rest) then rep ++ replaceFuel pat rep fuel ((c :: rest).drop pat.length)
    else c :: replaceFuel pat rep fuel rest

/-- Python `s.replace(pat, rep)` for a non-empty `pat` (the source only calls it
with the non-empty literals of line 135; the empty-pattern case of Python is
not needed and is modelled as the identity). -/
def pyReplace (pat rep s : List Char) : List Char :=
  if pat = [] then s else replaceFuel pat rep s.length s

/-- Does `pat` occur as a contiguous substring of `s`?  (Python `pat in s`.) -/
def hasSub (pat : List Char) : List Char → Bool
  | [] => pat.isEmpty
  | c :: rest => pat.isPrefixOf (c :: rest) || hasSub pat rest

/-- The opening fence with language tag removed at app.py line 135. -/
def fenceJson : List Char := "```json".data

/-- The bare fence removed at app.py line 135. -/
def fence : List Char := "```".data

/-- The fence-stripping step of app.py line 135:
`.replace("```json", "").replace("```", "")`. -/
def stripFences (t : List Char) : List Char :=
  pyReplace fence [] (pyReplace fenceJson [] t)

/-- app.py line 135: `response.text.strip().replace("```json", "").replace("```", "")`. -/
def cleanResp (t : List Char) : List Char :=
  stripFences (pyStrip t)

/-- Length of the run of backticks at the head (used to reason about fence
removal). -/
def lead : List Char → Nat
  | [] => 0
  | c :: r => if c = btick then lead r + 1 else 0

/-! ### JSON values and `json.loads`

`json.loads` is modelled by a recursive-descent parser over `List Char`
following Python's `json` module: JSON whitespace is ` \t\n\r`, strings use
the standard escapes, numbers follow the JSON grammar (kept as their lexeme,
since no claim inspects numeric values), the Python extensions `NaN`,
`Infinity` and `-Infinity` are accepted, raw control characters inside
strings are rejected (strict mode), and trailing non-whitespace is
`Extra data`.  Object member lists are kept in parse order; dict key lookup
takes the last binding, as `dict` construction does. -/

inductive JVal where
  | null : JVal
  | bool : Bool → JVal
  | num : List Char → JVal
  | str : List Char → JVal
  | arr : List JVal → JVal
  | obj : List (List Char × JVal) → JVal

instance : Inhabited JVal := ⟨JVal.null⟩

/-- JSON whitespace skipping (Python `json` accepts ` \t\n\r`). -/
def skipWs : List Char → List Char
  | [] => []
  | c :: r => if c = ' ' || c = '\t' || c = '\n' || c = '\r' then skipWs r else c :: r

/-- Value of a hex digit, if any. -/
def hexDigitVal (c : Char) : Option Nat :=
  if c.isDigit then some (c.toNat - 48)
  else if 97 ≤ c.toNat && c.toNat ≤ 102 then some (c.toNat - 87)
  else if 65 ≤ c.toNat && c.toNat ≤ 70 then some (c.toNat - 55)
  else none

/-- Single-character JSON string escapes. -/
def escMap (c : Char) : Option Char :=
  if c = quoteC then some quoteC
  else if c = backslashC then some backslashC
  else if c = Char.ofNat 47 then some (Char.ofNat 47)
  else if c = 'b' then some (Char.ofNat 8)
  else if c = 'f' then some (Char.ofNat 12)
  else if c = 'n' then some (Char.ofNat 10)
  else if c = 'r' then some (Char.ofNat 13)
  else if c = 't' then some (Char.ofNat 9)
  else none

/-- Parse the body of a JSON string (the opening quote already consumed),
returning the decoded characters and the rest of the input. -/
def parseStringBody : List Char → Except (List Char) (List Char × List Char)
  | [] => .error "Unterminated string".data
  | c :: rest =>
    if c = quoteC then .ok ([], rest)
    else if c = backslashC then
      match rest with
      | [] => .error "Unterminated string".data
      | e :: rest2 =>
        if e = 'u' then
          match rest2 with
          | h1 :: h2 :: h3 :: h4 :: rest3 =>
            match hexDigitVal h1, hexDigitVal h2, hexDigitVal h3, hexDigitVal h4 with
            | some a, some b, some c2, some d =>
              match parseStringBody rest3 with
              | .ok (tail, rem) =>
                .ok (Char.ofNat (((a * 16 + b) * 16 + c2) * 16 + d) :: tail, rem)
              | .error m => .error m
            | _, _, _, _ => .error "Invalid hex escape".data
          | _ => .error "Invalid hex escape".data
        else
          match escMap e with
          | some ch =>
            match parseStringBody rest2 with
            | .ok (tail, rem) => .ok (ch :: tail, rem)
            | .error m => .error m
          | none => .error "Invalid escape".data
    else if c.toNat < 32 then .error "Invalid control character".data
    else
      match parseStringBody rest with
      | .ok (tail, rem) => .ok (c :: tail, rem)
      | .error m => .error m

/-- Maximal run of digits at the head, and the rest. -/
def takeDigits (s : List Char) : List Char × List Char :=
  (s.takeWhile Char.isDigit, s.dropWhile Char.isDigit)

/-- Optional exponent part of a JSON number lexeme. -/
def numExpPart (lex : List Char) (s : List Char) : JVal × List Char :=
  match s with
  | e :: t =>
    if e = 'e' || e = 'E' then
      match t with
      | sg :: t2 =>
        if sg = '+' || sg = '-' then
          match takeDigits t2 with
          | ([], _) => (.num lex, s)
          | (ds, rem) => (.num (lex ++ e :: sg :: ds), rem)
        else
          match takeDigits t with
          | ([], _) => (.num lex, s)
          | (ds, rem) => (.num (lex ++ e :: ds), rem)
      | [] => (.num lex, s)
    else (.num lex, s)
  | [] => (.num lex, s)

/-- Optional fraction part of a JSON number lexeme, then the exponent part. -/
def numFracPart (lex : List Char) (s : List Char) : JVal × List Char :=
  match s with
  | d :: t =>
    if d = dotC then
      match takeDigits t with
      | ([], _) => numExpPart lex s
      | (ds, rem) => numExpPart (lex ++ d :: ds) rem
    else numExpPart lex s
  | [] => numExpPart lex s

/-- JSON number (Python's `NUMBER_RE`): optional sign, integer part without
leading zeros, optional fraction, optional exponent.  The lexeme is kept. -/
def parseNumber (s : List Char) : Except (List Char) (JVal × List Char) :=
  let signSplit : List Char × List Char :=
    match s with
    | c :: t => if c = '-' then ([c], t) else ([], s)
    | [] => ([], s)
  match signSplit.2 with
  | c :: t =>
    if c = '0' then .ok (numFracPart (signSplit.1 ++ [c]) t)
    else if c.isDigit then
      .ok (numFracPart (signSplit.1 ++ c :: t.takeWhile Char.isDigit) (t.dropWhile Char.isDigit))
    else .error "Expecting value".data
  | [] => .error "Expecting value".data

/-- Parser state: a value is expected, or an array / object continuation with
the members accumulated so far. -/
inductive PSt where
  | val : PSt
  | arrTail : List JVal → PSt
  | objTail : List (List Char × JVal) → PSt

/-- Recursive-descent core of `json.loads`; `fuel` bounds the recursion and is
set generously by `jsonParse`. -/
def parseF : Nat → PSt → List Char → Except (List Char) (JVal × List Char)
  | 0, _, _ => .error "Depth exceeded".data
  | fuel + 1, .val, s =>
    match skipWs s with
    | [] => .error "Expecting value".data
    | c :: rest =>
      if c = lbraceC then
        match skipWs rest with
        | d :: rest2 =>
          if d = rbraceC then .ok (.obj [], rest2)
          else if d = quoteC then
            match parseStringBody rest2 with
            | .error m => .error m
            | .ok (k, r1) =>
              match skipWs r1 with
              | d2 :: r2 =>
                if d2 = colonC then
                  match parseF fuel .val r2 with
                  | .error m => .error m
                  | .ok (v, r3) => parseF fuel (.objTail [(k, v)]) r3
                else .error "Expecting colon".data
              | [] => .error "Expecting colon".data
          else .error "Expecting property name".data
        | [] => .error "Expecting property name".data
      else if c = lbrackC then
        match skipWs rest with
        | d :: rest2 =>
          if d = rbrackC then .ok (.arr [], rest2)
          else
            match parseF fuel .val (d :: rest2) with
            | .error m => .error m
            | .ok (v, r1) => parseF fuel (.arrTail [v]) r1
        | [] => .error "Expecting value".data
      else if c = quoteC then
        match parseStringBody rest with
        | .error m => .error m
        | .ok (cs, r1) => .ok (.str cs, r1)
      else if c = 't' then
        match rest with
        | c1 :: c2 :: c3 :: r =>
          if c1 = 'r' && c2 = 'u' && c3 = 'e' then .ok (.bool true, r)
          else .error "Expecting value".data
        | _ => .error "Expecting value".data
      else if c = 'f' then
        match rest with
        | c1 :: c2 :: c3 :: c4 :: r =>
          if c1 = 'a' && c2 = 'l' && c3 = 's' && c4 = 'e' then .ok (.bool false, r)
          else .error "Expecting value".data
        | _ => .error "Expecting value".data
      else if c = 'n' then
        match rest with
        | c1 :: c2 :: c3 :: r =>
          if c1 = 'u' && c2 = 'l' && c3 = 'l' then .ok (.null, r)
          else .error "Expecting value".data
        | _ => .error "Expecting value".data
      else if c = 'N' then
        match rest with
        | c1 :: c2 :: r =>
          if c1 = 'a' && c2 = 'N' then .ok (.num ('N' :: 'a' :: 'N' :: []), r)
          else .error "Expecting value".data
        | _ => .error "Expecting value".data
      else if c = 'I' then
        match rest with
        | c1 :: c2 :: c3 :: c4 :: c5 :: c6 :: c7 :: r =>
          if c1 = 'n' && c2 = 'f' && c3 = 'i' && c4 = 'n' && c5 = 'i' && c6 = 't' && c7 = 'y' then
            .ok (.num "Infinity".data, r)
          else .error "Expecting value".data
        | _ => .error "Expecting value".data
      else if c = '-' then
        match rest with
        | 'I' :: c1 :: c2 :: c3 :: c4 :: c5 :: c6 :: c7 :: r =>
          if c1 = 'n' && c2 = 'f' && c3 = 'i' && c4 = 'n' && c5 = 'i' && c6 = 't' && c7 = 'y' then
            .ok (.num "-Infinity".data, r)
          else parseNumber (c :: rest)
        | _ => parseNumber (c :: rest)
      else if c.isDigit then parseNumber (c :: rest)
      else .error "Expecting value".data
  | fuel + 1, .arrTail acc, s =>
    match skipWs s with
    | c :: rest =>
      if c = rbrackC then .ok (.arr acc, rest)
      else if c = commaC then
        match parseF fuel .val rest with
        | .error m => .error m
        | .ok (v, r1) => parseF fuel (.arrTail (acc ++ [v])) r1
      else .error "Expecting comma delimiter".data
    | [] => .error "Expecting comma delimiter".data
  | fuel + 1, .objTail acc, s =>
    match skipWs s with
    | c :: rest =>
      if c = rbraceC then .ok (.obj acc, rest)
      else if c = commaC then
        match skipWs rest with
        | d :: r1 =>
          if d = quoteC then
            match parseStringBody r1 with
            | .error m => .error m
            | .ok (k, r2) =>
              match skipWs r2 with
              | d2 :: r3 =>
                if d2 = colonC then
                  match parseF fuel .val r3 with
                  | .error m => .error m
                  | .ok (v, r4) => parseF fuel (.objTail (acc ++ [(k, v)])) r4
                else .error "Expecting colon".data
              | [] => .error "Expecting colon".data
          else .error "Expecting property name".data
        | [] => .error "Expecting property name".data
      else .error "Expecting comma delimiter".data
    | [] => .error "Expecting comma delimiter".data

/-- `json.loads`: parse one JSON document; anything but whitespace after it is
an error. -/
def jsonParse (s : List Char) : Except (List Char) JVal :=
  match parseF (2 * s.length + 2) .val s with
  | .error m => .error m
  | .ok (v, rest) => if skipWs rest = [] then .ok v else .error "Extra data".data

/-! ### Python value operations used by `index` -/

/-- Join with `", "` (used by the Python `repr` of containers). -/
def joinCommaSep : List (List Char) → List Char
  | [] => []
  | [x] => x
  | x :: y :: rest => x ++ ", ".data ++ joinCommaSep (y :: rest)

/-- Python `repr` of a parsed JSON value (approximated; only its totality and
its behaviour on strings matter to the handler's error branch). -/
def pyRepr : JVal → List Char
  | .null => "None".data
  | .bool b => if b then "True".data else "False".data
  | .num lex => lex
  | .str s => [Char.ofNat 39] ++ s ++ [Char.ofNat 39]
  | .arr xs => [lbrackC] ++ joinCommaSep (xs.attach.map fun x => pyRepr x.1) ++ [rbrackC]
  | .obj fs =>
    [lbraceC] ++
      joinCommaSep (fs.attach.map fun kv =>
        [Char.ofNat 39] ++ kv.1.1 ++ [Char.ofNat 39] ++ ": ".data ++ pyRepr kv.1.2) ++
      [rbraceC]
  termination_by v => sizeOf v
  decreasing_by
  · have := List.sizeOf_lt_of_mem x.2
    simp only [JVal.arr.sizeOf_spec]
    omega
  · have h1 := List.sizeOf_lt_of_mem kv.2
    have h2 : sizeOf kv.1.2 < sizeOf kv.1 := by
      obtain ⟨a, b⟩ := kv.1
      simp only [Prod.mk.sizeOf_spec]
      omega
    simp only [JVal.obj.sizeOf_spec]
    omega

/-- Python `str()` applied to a parsed JSON value (used by the f-string of
app.py line 176). -/
def pyStr (v : JVal) : List Char :=
  match v with
  | .str s => s
  | v => pyRepr v

/-- Is this element equal (in Python's `==` sense) to the string `key`?  Only
a string compares equal to a string. -/
def strEqKey (key : List Char) : JVal → Bool
  | .str s => decide (s = key)
  | _ => false

/-- Lookup in the dict built from a parsed member list: the last binding of a
key wins, as in Python dict construction. -/
def dictLookup : List (List Char × JVal) → List Char → Option JVal
  | [], _ => none
  | (k, v) :: rest, key =>
    match dictLookup rest key with
    | some w => some w
    | none => if k = key then some v else none

/-- Python `key in d` for a dict. -/
def dictContains (fs : List (List Char × JVal)) (key : List Char) : Bool :=
  fs.any fun kv => decide (kv.1 = key)

/-- Python exceptions that `index` can raise (uncaught, they become an error
page of the web framework instead of a rendered ticket view). -/
inductive PyError where
  | keyError : List Char → PyError
  | typeError : PyError
  | attributeError : PyError
  deriving DecidableEq, Repr

/-- Python `key in v` for a string `key` and an arbitrary parsed value:
key membership for dicts, element membership for lists, substring test for
strings, and a `TypeError` otherwise. -/
def pyIn (key : List Char) : JVal → Except PyError Bool
  | .obj fs => .ok (dictContains fs key)
  | .arr xs => .ok (xs.any (strEqKey key))
  | .str s => .ok (hasSub key s)
  | _ => .error .typeError

/-- Python `v[key]` for a string `key`: dict item access; a `TypeError` on any
non-dict (list and string indices must be integers / slices). -/
def pyGetItem (v : JVal) (key : List Char) : Except PyError JVal :=
  match v with
  | .obj fs =>
    match dictLookup fs key with
    | some w => .ok w
    | none => .error (.keyError key)
  | _ => .error .typeError

/-- Python `v.get(key, dflt)`: only dicts have `.get`; anything else raises
`AttributeError`. -/
def pyDictGet (v : JVal) (key : List Char) (dflt : JVal) : Except PyError JVal :=
  match v with
  | .obj fs => .ok ((dictLookup fs key).getD dflt)
  | _ => .error .attributeError

/-- The external markdown renderer (`markdown.markdown`) accepts text; handing
it a non-string raises. -/
def asText (v : JVal) : Except PyError (List Char) :=
  match v with
  | .str s => .ok s
  | _ => .error .typeError

/-! ### The AI logic function and the request handler -/

/-- The error dict shape returned by `get_ai_analysis`. -/
def errObj (msg : List Char) : JVal := .obj [("error".data, .str msg)]

/-- app.py line 144: message rendered when the credential was absent at
process start. -/
def apiKeyMissingMsg : List Char := "ERROR: GOOGLE_API_KEY is not set.".data

/-- app.py lines 131-138.  `model` is the remembered process-start availability
check (lines 9-13); `call` is the opaque model capability: it either returns
the reply text or raises (is `.error`) with the exception's message, covering
network failures and blocked responses alike. -/
def get_ai_analysis (model : Bool) (call : List Char → Except (List Char) (List Char))
    (prompt : List Char) : JVal :=
  if model = false then errObj "API Key not configured.".data
  else
    match call prompt with
    | .error e => errObj ("An error occurred: ".data ++ e)
    | .ok text =>
      match jsonParse (cleanResp text) with
      | .ok v => v
      | .error e => errObj ("An error occurred: ".data ++ e)

/-- The POST form data reaching `index`: `user_story` and `context` (required
fields of the page), the contiguous hidden `question_i` fields (absence of
`question_i` terminates the scan, so they are a list), and the sparse
`answer_i` fields. -/
structure PostForm where
  user_story : List Char
  context : List Char
  questions : List (List Char)
  answer : Nat → Option (List Char)

/-- Decimal digits of an index, for KeyError messages. -/
def natChars (n : Nat) : List Char := (Nat.repr n).data

/-- app.py lines 160-167: scan `question_i` / `answer_i` pairs, appending a
`Question:`/`Answer:` block for each non-empty answer.  `request.form["answer_i"]`
raises `KeyError` when the field is absent. -/
def buildAnswers (answer : Nat → Option (List Char)) : List (List Char) → Nat →
    Except PyError (List Char)
  | [], _ => .ok []
  | q :: qs, i =>
    match answer i with
    | none => .error (.keyError ("answer_".data ++ natChars i))
    | some a =>
      match buildAnswers answer qs (i + 1) with
      | .error e => .error e
      | .ok rest =>
        .ok ((if a = [] then []
              else "\n\nQuestion: ".data ++ q ++ "\nAnswer: ".data ++ a) ++ rest)

/-- app.py line 170: separator header prefixed to any appended answer blocks. -/
def answersHeader : List Char := "\n\n--- User\x27s Answers to Previous Questions ---".data

/-- app.py lines 157 and 169-170: base prompt, plus header and answer blocks
when any answer block was appended. -/
def composePrompt (user_story context answers_text : List Char) : List Char :=
  let base := "User Story: ".data ++ user_story ++ "\n\nContext/Brain Dump:\n".data ++ context
  if answers_text = [] then base else base ++ answersHeader ++ answers_text

/-- The prompt `index` sends for a POST form (or the exception raised while
scanning the answers). -/
def promptOf (form : PostForm) : Except PyError (List Char) :=
  match buildAnswers form.answer form.questions 0 with
  | .error e => .error e
  | .ok t => .ok (composePrompt form.user_story form.context t)

/-- What `index` renders: the config-error page (line 144), or the normal page
with its `view_data` (`user_story`, `context`, `preview_html`, and the raw
value stored under `clarifying_questions`). -/
inductive Rendered where
  | configPage : List Char → Rendered
  | page : List Char → List Char → List Char → JVal → Rendered

/-- app.py line 176: inline error paragraph. -/
def errorHtml (msg : List Char) : List Char :=
  "<p class=\x27error\x27>Error: ".data ++ msg ++ "</p>".data

/-- app.py lines 175-181: branch on `"error" in analysis`, render the inline
error or the markdown-converted draft plus the clarifying questions.  `md` is
the external markdown-to-HTML renderer. -/
def renderAnalysis (md : List Char → List Char) (user_story context : List Char)
    (analysis : JVal) : Except PyError Rendered :=
  match pyIn "error".data analysis with
  | .error e => .error e
  | .ok true =>
    match pyGetItem analysis "error".data with
    | .error e => .error e
    | .ok ev => .ok (.page user_story context (errorHtml (pyStr ev)) (.arr []))
  | .ok false =>
    match pyDictGet analysis "ticket_draft".data (.str []) with
    | .error e => .error e
    | .ok tdv =>
      match asText tdv with
      | .error e => .error e
      | .ok td =>
        match pyDictGet analysis "clarifying_questions".data (.arr []) with
        | .error e => .error e
        | .ok cq => .ok (.page user_story context (md td) cq)

/-- app.py lines 142-186: the request handler.  `req = none` is a GET;
`req = some form` is a POST with that form data. -/
def index (model : Bool) (md : List Char → List Char)
    (call : List Char → Except (List Char) (List Char))
    (req : Option PostForm) : Except PyError Rendered :=
  if model = false then .ok (.configPage apiKeyMissingMsg)
  else
    match req with
    | none => .ok (.page [] [] [] (.arr []))
    | some form =>
      match promptOf form with
      | .error e => .error e
      | .ok prompt =>
        renderAnalysis md form.user_story form.context (get_ai_analysis model call prompt)

/-! ### Spec-side composer (for the refinement claims)

The spec's §4.1 step 2 words, as a second definition to compare with
`buildAnswers`: for each index with a question, append the block exactly when
the answer is present and non-empty; an empty *or absent* answer is omitted
entirely. -/

/-- The answer blocks as the spec describes them (absent answers silently
dropped rather than raising). -/
def specAnswerBlocks (answer : Nat → Option (List Char)) : List (List Char) → Nat → List Char
  | [], _ => []
  | q :: qs, i =>
    (match answer i with
     | none => []
     | some a =>
       if a = [] then []
       else "\n\nQuestion: ".data ++ q ++ "\nAnswer: ".data ++ a)
    ++ specAnswerBlocks answer qs (i + 1)

/-! ### Toolkit: facts about the replace / substring model -/

theorem isPrefixOfCorrect (p : List Char) : ∀ s, p.isPrefixOf s = true ↔ ∃ t, p ++ t = s := by
  induction p with
  | nil => intro s; simp [List.isPrefixOf]
  | cons a p ih =>
    intro s
    cases s with
    | nil => simp [List.isPrefixOf]
    | cons b t =>
      simp only [List.isPrefixOf, Bool.and_eq_true, beq_iff_eq, ih t, List.cons_append,
        List.cons.injEq]
      constructor
      · rintro ⟨rfl, u, rfl⟩; exact ⟨u, rfl, rfl⟩
      · rintro ⟨u, rfl, rfl⟩; exact ⟨rfl, u, rfl⟩

theorem replaceFuel_nil (pat rep : List Char) (f : Nat) : replaceFuel pat rep f [] = [] := by
  cases f <;> rfl

theorem replaceFuel_zero (pat rep : List Char) (s : List Char) : replaceFuel pat rep 0 s = s := by
  cases s <;> rfl

theorem replaceFuel_noSub (pat rep : List Char) :
    ∀ s f, hasSub pat s = false → replaceFuel pat rep f s = s := by
  intro s
  induction s with
  | nil => intro f _; exact replaceFuel_nil pat rep f
  | cons c rest ih =>
    intro f h
    cases f with
    | zero => exact replaceFuel_zero pat rep _
    | succ f =>
      simp only [hasSub, Bool.or_eq_false_iff] at h
      simp only [replaceFuel, h.1, Bool.false_eq_true, if_false]
      rw [ih f h.2]

theorem pyReplace_noSub (pat rep s : List Char) (h : hasSub pat s = false) :
    pyReplace pat rep s = s := by
  unfold pyReplace
  split
  · rfl
  · exact replaceFuel_noSub pat rep s s.length h

theorem isPrefixOfAppend (p q t : List Char) (h : (p ++ q).isPrefixOf t = true) :
    p.isPrefixOf t = true := by
  obtain ⟨u, hu⟩ := (isPrefixOfCorrect (p ++ q) t).mp h
  exact (isPrefixOfCorrect p t).mpr ⟨q ++ u, by rw [← hu, List.append_assoc]⟩

theorem hasSubMono (p q : List Char) : ∀ s, hasSub (p ++ q) s = true → hasSub p s = true := by
  intro s
  induction s with
  | nil =>
    simp only [hasSub, List.isEmpty_iff, List.append_eq_nil]
    rintro ⟨rfl, rfl⟩; rfl
  | cons c rest ih =>
    simp only [hasSub, Bool.or_eq_true]
    rintro (h | h)
    · exact Or.inl (isPrefixOfAppend p q _ h)
    · exact Or.inr (ih h)

theorem replaceFuel_cons_eq (pat rep : List Char) (f : Nat) (c : Char) (rest : List Char) :
    replaceFuel pat rep (f + 1) (c :: rest) =
      if pat.isPrefixOf (c :: rest) = true then
        rep ++ replaceFuel pat rep f ((c :: rest).drop pat.length)
      else c :: replaceFuel pat rep f rest := rfl

theorem hasSub_cons_eq (pat : List Char) (c : Char) (rest : List Char) :
    hasSub pat (c :: rest) = (pat.isPrefixOf (c :: rest) || hasSub pat rest) := rfl

theorem replaceFuel_consume (pat rep t : List Char) (hp : pat ≠ []) (f : Nat) :
    replaceFuel pat rep (f + 1) (pat ++ t) = rep ++ replaceFuel pat rep f t := by
  obtain ⟨c, pat', rfl⟩ := List.exists_cons_of_ne_nil hp
  have hpre : (c :: pat').isPrefixOf (c :: (pat' ++ t)) = true :=
    (isPrefixOfCorrect _ _).mpr ⟨t, by simp⟩
  rw [List.cons_append, replaceFuel_cons_eq, if_pos hpre, ← List.cons_append, List.drop_left]

theorem replaceFuel_skipNb (pat' rep : List Char) :
    ∀ (xs : List Char) (ys : List Char) (f : Nat), (∀ c ∈ xs, c ≠ btick) →
      replaceFuel (btick :: pat') rep f (xs ++ ys) =
        xs ++ replaceFuel (btick :: pat') rep (f - xs.length) ys := by
  intro xs
  induction xs with
  | nil => intro ys f _; simp
  | cons c xs ih =>
    intro ys f h
    have hc : c ≠ btick := h c (List.mem_cons_self c xs)
    cases f with
    | zero =>
      rw [replaceFuel_zero, Nat.zero_sub, replaceFuel_zero, List.cons_append]
    | succ f =>
      have hpre : ¬ (btick :: pat').isPrefixOf (c :: (xs ++ ys)) = true := by
        intro hq
        obtain ⟨u, hu⟩ := (isPrefixOfCorrect _ _).mp hq
        exact hc (List.cons.inj hu).1.symm
      rw [List.cons_append, replaceFuel_cons_eq, if_neg hpre,
        ih ys f (fun d hd => h d (List.mem_cons_of_mem c hd))]
      simp [Nat.succ_sub_succ]

theorem hasSub_appendNb (p : List Char) :
    ∀ (xs ys : List Char), (∀ c ∈ xs, c ≠ btick) →
      hasSub (btick :: p) (xs ++ ys) = hasSub (btick :: p) ys := by
  intro xs
  induction xs with
  | nil => intro ys _; rfl
  | cons c xs ih =>
    intro ys h
    have hc : c ≠ btick := h c (List.mem_cons_self c xs)
    have hpre : (btick :: p).isPrefixOf (c :: (xs ++ ys)) = false := by
      cases hq : (btick :: p).isPrefixOf (c :: (xs ++ ys)) with
      | false => rfl
      | true =>
        obtain ⟨u, hu⟩ := (isPrefixOfCorrect _ _).mp hq
        exact absurd (List.cons.inj hu).1.symm hc
    rw [List.cons_append, hasSub_cons_eq, hpre, Bool.false_or]
    exact ih ys (fun d hd => h d (List.mem_cons_of_mem c hd))

theorem fence_cons : fence = btick :: btick :: btick :: [] := by decide

theorem fenceJson_split : fenceJson = fence ++ "json".data := by decide

theorem lead_cons_btick (r : List Char) : lead (btick :: r) = lead r + 1 := by simp [lead]

theorem lead_cons_ne (c : Char) (r : List Char) (h : c ≠ btick) : lead (c :: r) = 0 := by
  simp [lead, h]

theorem lead_le_one_of : ∀ r : List Char, (btick :: btick :: []).isPrefixOf r = false →
    lead r ≤ 1 := by
  intro r h
  match r with
  | [] => simp [lead]
  | [c] => by_cases hc : c = btick <;> simp [lead, hc]
  | c :: d :: r' =>
    by_cases hc : c = btick
    · subst hc
      by_cases hd : d = btick
      · subst hd
        have : (btick :: btick :: []).isPrefixOf (btick :: btick :: r') = true :=
          (isPrefixOfCorrect _ _).mpr ⟨r', rfl⟩
        simp [this] at h
      · rw [lead_cons_btick, lead_cons_ne d r' hd]
    · simp [lead, hc]

theorem two_le_lead_of (R : List Char) (h : (btick :: btick :: []).isPrefixOf R = true) :
    2 ≤ lead R := by
  obtain ⟨u, hu⟩ := (isPrefixOfCorrect _ _).mp h
  rw [← hu, List.cons_append, List.cons_append, List.nil_append, lead_cons_btick,
    lead_cons_btick]
  omega

/-- Replacing every fence by the empty string leaves no fence in the output:
the output's backtick runs are the input's run lengths reduced below three,
and runs never merge. -/
theorem replaceFence_ok : ∀ f s, s.length ≤ f →
    hasSub fence (replaceFuel fence [] f s) = false ∧
    lead (replaceFuel fence [] f s) ≤ 2 ∧
    lead (replaceFuel fence [] f s) ≤ lead s := by
  intro f
  induction f with
  | zero =>
    intro s hs
    have hn : s = [] := List.eq_nil_of_length_eq_zero (Nat.le_zero.mp hs)
    subst hn
    rw [replaceFuel_nil]
    exact ⟨by decide, by simp [lead], by simp [lead]⟩
  | succ f ih =>
    intro s hs
    match s with
    | [] =>
      rw [replaceFuel_nil]
      exact ⟨by decide, by simp [lead], by simp [lead]⟩
    | c :: rest =>
      by_cases hp : fence.isPrefixOf (c :: rest) = true
      · obtain ⟨t, ht⟩ := (isPrefixOfCorrect _ _).mp hp
        have hdrop : (c :: rest).drop fence.length = t := by rw [← ht, List.drop_left]
        rw [replaceFuel_cons_eq, if_pos hp, hdrop, List.nil_append]
        have hlen : t.length ≤ f := by
          have h4 := congrArg List.length ht
          have h5 : fence.length = 3 := by decide
          rw [List.length_append, h5, List.length_cons] at h4
          have h6 : rest.length ≤ f := by
            simp only [List.length_cons] at hs
            omega
          omega
        obtain ⟨h1, h2, h3⟩ := ih t hlen
        refine ⟨h1, h2, ?_⟩
        have hl : lead (c :: rest) = lead t + 3 := by
          rw [← ht, fence_cons]
          simp only [List.cons_append, List.nil_append, lead_cons_btick]
        omega
      · rw [replaceFuel_cons_eq, if_neg hp]
        have hrl : rest.length ≤ f := by
          simp only [List.length_cons] at hs
          omega
        obtain ⟨h1, h2, h3⟩ := ih rest hrl
        by_cases hc : c = btick
        · subst hc
          have hbb : (btick :: btick :: []).isPrefixOf rest = false := by
            cases hq : (btick :: btick :: []).isPrefixOf rest with
            | false => rfl
            | true =>
              exfalso
              obtain ⟨u, hu⟩ := (isPrefixOfCorrect _ _).mp hq
              exact hp ((isPrefixOfCorrect _ _).mpr ⟨u, by rw [fence_cons]; rw [← hu]; rfl⟩)
          have hlr : lead rest ≤ 1 := lead_le_one_of rest hbb
          have hR2 : lead (replaceFuel fence [] f rest) ≤ 1 := le_trans h3 hlr
          refine ⟨?_, ?_, ?_⟩
          · rw [hasSub_cons_eq]
            have hpR : fence.isPrefixOf (btick :: replaceFuel fence [] f rest) = false := by
              cases hq : fence.isPrefixOf (btick :: replaceFuel fence [] f rest) with
              | false => rfl
              | true =>
                exfalso
                obtain ⟨u, hu⟩ := (isPrefixOfCorrect _ _).mp hq
                rw [fence_cons] at hu
                simp only [List.cons_append, List.nil_append, List.cons.injEq, true_and] at hu
                have : 2 ≤ lead (replaceFuel fence [] f rest) := by
                  rw [fence_cons, ← hu, lead_cons_btick, lead_cons_btick]
                  omega
                omega
            rw [hpR, h1]
            rfl
          · rw [lead_cons_btick]; omega
          · rw [lead_cons_btick, lead_cons_btick]; omega
        · have l0 : lead (c :: replaceFuel fence [] f rest) = 0 := lead_cons_ne _ _ hc
          refine ⟨?_, ?_, ?_⟩
          · rw [hasSub_cons_eq]
            have hpR : fence.isPrefixOf (c :: replaceFuel fence [] f rest) = false := by
              cases hq : fence.isPrefixOf (c :: replaceFuel fence [] f rest) with
              | false => rfl
              | true =>
                exfalso
                obtain ⟨u, hu⟩ := (isPrefixOfCorrect _ _).mp hq
                rw [fence_cons] at hu
                simp only [List.cons_append, List.nil_append, List.cons.injEq] at hu
                exact hc hu.1.symm
            rw [hpR, h1]
            rfl
          · rw [l0]; omega
          · rw [l0]; omega

theorem fence_ne_nil : fence ≠ [] := by decide

theorem pyReplaceFenceNoFence (x : List Char) : hasSub fence (pyReplace fence [] x) = false := by
  unfold pyReplace
  rw [if_neg fence_ne_nil]
  exact (replaceFence_ok x.length x le_rfl).1

theorem stripFencesNoFence (t : List Char) :
    hasSub fence (stripFences t) = false ∧ hasSub fenceJson (stripFences t) = false := by
  have h1 : hasSub fence (stripFences t) = false := pyReplaceFenceNoFence _
  refine ⟨h1, ?_⟩
  cases hq : hasSub fenceJson (stripFences t) with
  | false => rfl
  | true =>
    exfalso
    rw [fenceJson_split] at hq
    rw [hasSubMono fence "json".data _ hq] at h1
    exact Bool.true_eq_false.mp h1

theorem pyStripId (s : List Char) (c d : Char) (h1 : s.head? = some c)
    (hc : pyIsSpace c = false) (h2 : s.getLast? = some d) (hd : pyIsSpace d = false) :
    pyStrip s = s := by
  cases s with
  | nil => cases h1
  | cons c' t =>
    have hcc : c' = c := by
      simp only [List.head?] at h1
      exact Option.some.inj h1
    subst hcc
    have hdw : List.dropWhile pyIsSpace (c' :: t) = c' :: t := by
      rw [List.dropWhile_cons]
      simp [hc]
    have hrev : (c' :: t).reverse.head? = some d := by
      rw [List.head?_reverse]; exact h2
    unfold pyStrip
    rw [hdw]
    cases hr : (c' :: t).reverse with
    | nil => rw [hr] at hrev; cases hrev
    | cons d' w =>
      rw [hr] at hrev
      have hdd : d' = d := by
        simp only [List.head?] at hrev
        exact Option.some.inj hrev
      subst hdd
      have h5 : List.dropWhile pyIsSpace (d' :: w) = d' :: w := by
        rw [List.dropWhile_cons]
        simp [hd]
      rw [h5, ← hr, List.reverse_reverse]

/-! ### Cleaning a fence-wrapped reply (for the fenced-reply claims) -/

theorem tagOpen_eq : "```json\n".data = fenceJson ++ ['\n'] := by decide

theorem tagOpen_cons : "```json\n".data = btick :: "``json\n".data := by decide

theorem bareOpen_eq : "```\n".data = fence ++ ['\n'] := by decide

theorem bareOpen_cons : "```\n".data = btick :: "``\n".data := by decide

theorem closeTail_eq : "\n```".data = '\n' :: fence := by decide

theorem fenceJson_cons2 : fenceJson = btick :: "``json".data := by decide

theorem fenceJson_ne_nil : fenceJson ≠ [] := by decide

theorem prefJ0 (w : List Char) :
    fenceJson.isPrefixOf (btick :: btick :: btick :: '\n' :: w) = false := by rfl

theorem prefJ1 (w : List Char) :
    fenceJson.isPrefixOf (btick :: btick :: '\n' :: w) = false := by rfl

theorem prefJ2 (w : List Char) : fenceJson.isPrefixOf (btick :: '\n' :: w) = false := by rfl

theorem prefJ3 (w : List Char) : fenceJson.isPrefixOf ('\n' :: w) = false := by rfl

theorem hasSub_fenceJson_mid (body : List Char) (hb : ∀ c ∈ body, c ≠ btick) :
    hasSub fenceJson ('\n' :: (body ++ '\n' :: fence)) = false := by
  rw [hasSub_cons_eq, prefJ3, Bool.false_or]
  rw [fenceJson_cons2, hasSub_appendNb _ body _ hb]
  decide

theorem hasSub_fenceJson_bare (body : List Char) (hb : ∀ c ∈ body, c ≠ btick) :
    hasSub fenceJson (fence ++ ('\n' :: (body ++ '\n' :: fence))) = false := by
  rw [show fence ++ ('\n' :: (body ++ '\n' :: fence)) =
      btick :: btick :: btick :: '\n' :: (body ++ '\n' :: fence) by rw [fence_cons]; rfl]
  rw [hasSub_cons_eq, prefJ0, Bool.false_or, hasSub_cons_eq, prefJ1, Bool.false_or,
    hasSub_cons_eq, prefJ2, Bool.false_or, hasSub_cons_eq, prefJ3, Bool.false_or]
  rw [fenceJson_cons2, hasSub_appendNb _ body _ hb]
  decide

theorem stripFences_mid (body : List Char) (hb : ∀ c ∈ body, c ≠ btick) :
    pyReplace fence [] ('\n' :: (body ++ '\n' :: fence)) = '\n' :: (body ++ ['\n']) := by
  have hxs : '\n' :: (body ++ '\n' :: fence) = ('\n' :: (body ++ ['\n'])) ++ fence := by
    simp
  unfold pyReplace
  rw [if_neg fence_ne_nil, hxs]
  have hnb : ∀ c ∈ '\n' :: (body ++ ['\n']), c ≠ btick := by
    intro c hcm
    rcases List.mem_cons.mp hcm with h | h
    · subst h; decide
    · rcases List.mem_append.mp h with h | h
      · exact hb c h
      · rcases List.mem_singleton.mp h with rfl; decide
  rw [fence_cons, replaceFuel_skipNb _ _ _ _ _ hnb, ← fence_cons]
  have harith : (('\n' :: (body ++ ['\n'])) ++ fence).length - ('\n' :: (body ++ ['\n'])).length = 3 := by
    rw [List.length_append]
    have h3 : fence.length = 3 := by decide
    omega
  rw [harith]
  rw [show replaceFuel fence [] 3 fence = [] from by decide]
  simp

theorem cleanWrapJson (body : List Char) (hb : ∀ c ∈ body, c ≠ btick) :
    cleanResp ("```json\n".data ++ body ++ "\n```".data) = '\n' :: (body ++ ['\n']) := by
  have hstrip : pyStrip ("```json\n".data ++ body ++ "\n```".data) =
      "```json\n".data ++ body ++ "\n```".data := by
    apply pyStripId _ btick btick
    · rw [tagOpen_cons]; rfl
    · decide
    · rw [List.getLast?_append_of_ne_nil]
      · decide
      · decide
    · decide
  have hsplit : "```json\n".data ++ body ++ "\n```".data =
      fenceJson ++ ('\n' :: (body ++ '\n' :: fence)) := by
    rw [tagOpen_eq, closeTail_eq]
    simp
  unfold cleanResp
  rw [hstrip, hsplit]
  have hrepl1 : pyReplace fenceJson [] (fenceJson ++ ('\n' :: (body ++ '\n' :: fence))) =
      '\n' :: (body ++ '\n' :: fence) := by
    unfold pyReplace
    rw [if_neg fenceJson_ne_nil]
    have hflen : (fenceJson ++ ('\n' :: (body ++ '\n' :: fence))).length =
        (6 + ('\n' :: (body ++ '\n' :: fence)).length) + 1 := by
      rw [List.length_append]
      have h7 : fenceJson.length = 7 := by decide
      omega
    rw [hflen, replaceFuel_consume _ _ _ fenceJson_ne_nil, List.nil_append]
    exact replaceFuel_noSub _ _ _ _ (hasSub_fenceJson_mid body hb)
  unfold stripFences
  rw [hrepl1]
  exact stripFences_mid body hb

theorem cleanWrapBare (body : List Char) (hb : ∀ c ∈ body, c ≠ btick) :
    cleanResp ("```\n".data ++ body ++ "\n```".data) = '\n' :: (body ++ ['\n']) := by
  have hstrip : pyStrip ("```\n".data ++ body ++ "\n```".data) =
      "```\n".data ++ body ++ "\n```".data := by
    apply pyStripId _ btick btick
    · rw [bareOpen_cons]; rfl
    · decide
    · rw [List.getLast?_append_of_ne_nil]
      · decide
      · decide
    · decide
  have hsplit : "```\n".data ++ body ++ "\n```".data =
      fence ++ ('\n' :: (body ++ '\n' :: fence)) := by
    rw [bareOpen_eq, closeTail_eq]
    simp
  unfold cleanResp
  rw [hstrip, hsplit]
  have hrepl1 : pyReplace fenceJson [] (fence ++ ('\n' :: (body ++ '\n' :: fence))) =
      fence ++ ('\n' :: (body ++ '\n' :: fence)) :=
    pyReplace_noSub _ _ _ (hasSub_fenceJson_bare body hb)
  unfold stripFences
  rw [hrepl1]
  have hsplit2 : fence ++ ('\n' :: (body ++ '\n' :: fence)) =
      fence ++ (('\n' :: (body ++ ['\n'])) ++ fence) := by
    simp
  unfold pyReplace
  rw [if_neg fence_ne_nil, hsplit2]
  have hflen : (fence ++ (('\n' :: (body ++ ['\n'])) ++ fence)).length =
      ((('\n' :: (body ++ ['\n'])) ++ fence).length + 2) + 1 := by
    rw [List.length_append]
    have h3 : fence.length = 3 := by decide
    omega
  rw [hflen, replaceFuel_consume _ _ _ fence_ne_nil, List.nil_append]
  have hnb : ∀ c ∈ '\n' :: (body ++ ['\n']), c ≠ btick := by
    intro c hcm
    rcases List.mem_cons.mp hcm with h | h
    · subst h; decide
    · rcases List.mem_append.mp h with h | h
      · exact hb c h
      · rcases List.mem_singleton.mp h with rfl; decide
  rw [fence_cons, replaceFuel_skipNb _ _ _ _ _ hnb, ← fence_cons]
  have harith : (('\n' :: (body ++ ['\n'])) ++ fence).length + 2 -
      ('\n' :: (body ++ ['\n'])).length = 5 := by
    rw [List.length_append]
    have h3 : fence.length = 3 := by decide
    omega
  rw [harith]
  rw [show replaceFuel fence [] 5 fence = [] from by decide]
  simp

/-! ### Dict, rendering and composition facts -/

theorem dictContainsCorrect (key : List Char) :
    ∀ fs, dictContains fs key = (dictLookup fs key).isSome := by
  intro fs
  induction fs with
  | nil => rfl
  | cons kv rest ih =>
    obtain ⟨k, v⟩ := kv
    cases h : dictLookup rest key with
    | some w =>
      have hl : dictLookup ((k, v) :: rest) key = some w := by rw [dictLookup, h]
      rw [hl]
      have hcr : dictContains rest key = true := by rw [ih, h]; rfl
      simp [dictContains, List.any_cons] at hcr ⊢
      exact Or.inr hcr
    | none =>
      have hcr : dictContains rest key = false := by rw [ih, h]; rfl
      by_cases hk : k = key
      · have hl : dictLookup ((k, v) :: rest) key = some v := by
          rw [dictLookup, h]
          simp [hk]
        rw [hl]
        simp [dictContains, List.any_cons, hk]
      · have hl : dictLookup ((k, v) :: rest) key = none := by
          rw [dictLookup, h]
          simp [hk]
        rw [hl]
        simp [dictContains, List.any_cons, hk] at hcr ⊢
        exact hcr

theorem dictLookup_appendOther (k' : List Char) (v' : JVal) (key : List Char) (hk : k' ≠ key) :
    ∀ fs, dictLookup (fs ++ [(k', v')]) key = dictLookup fs key := by
  intro fs
  induction fs with
  | nil =>
    simp only [List.nil_append, dictLookup, hk]
    rfl
  | cons kv rest ih =>
    obtain ⟨k, v⟩ := kv
    simp only [List.cons_append, dictLookup, List.append_eq, ih]

theorem renderAnalysis_errObj (md : List Char → List Char) (us ctx m : List Char) :
    renderAnalysis md us ctx (errObj m) = .ok (.page us ctx (errorHtml m) (.arr [])) := rfl

theorem renderAnalysis_obj_err (md : List Char → List Char) (us ctx : List Char)
    (fs : List (List Char × JVal)) (v : JVal) (h : dictLookup fs "error".data = some v) :
    renderAnalysis md us ctx (.obj fs) = .ok (.page us ctx (errorHtml (pyStr v)) (.arr [])) := by
  have hc : dictContains fs "error".data = true := by rw [dictContainsCorrect, h]; rfl
  simp [renderAnalysis, pyIn, hc, pyGetItem, h]

theorem renderAnalysis_obj_noerr (md : List Char → List Char) (us ctx : List Char)
    (fs : List (List Char × JVal)) (he : dictLookup fs "error".data = none)
    (ht : dictLookup fs "ticket_draft".data = none) :
    renderAnalysis md us ctx (.obj fs) =
      .ok (.page us ctx (md []) ((dictLookup fs "clarifying_questions".data).getD (.arr []))) := by
  have hc : dictContains fs "error".data = false := by rw [dictContainsCorrect, he]; rfl
  simp [renderAnalysis, pyIn, hc, pyDictGet, ht, asText]

theorem renderAnalysis_obj_td (md : List Char → List Char) (us ctx : List Char)
    (fs : List (List Char × JVal)) (s : List Char) (he : dictLookup fs "error".data = none)
    (ht : dictLookup fs "ticket_draft".data = some (.str s)) :
    renderAnalysis md us ctx (.obj fs) =
      .ok (.page us ctx (md s) ((dictLookup fs "clarifying_questions".data).getD (.arr []))) := by
  have hc : dictContains fs "error".data = false := by rw [dictContainsCorrect, he]; rfl
  simp [renderAnalysis, pyIn, hc, pyDictGet, ht, asText]

theorem get_ai_analysis_callFail (call : List Char → Except (List Char) (List Char))
    (prompt e : List Char) (h : call prompt = .error e) :
    get_ai_analysis true call prompt = errObj ("An error occurred: ".data ++ e) := by
  simp [get_ai_analysis, h]

theorem get_ai_analysis_parseFail (call : List Char → Except (List Char) (List Char))
    (prompt text e : List Char) (h1 : call prompt = .ok text)
    (h2 : jsonParse (cleanResp text) = .error e) :
    get_ai_analysis true call prompt = errObj ("An error occurred: ".data ++ e) := by
  simp [get_ai_analysis, h1, h2]

theorem get_ai_analysis_parsed (call : List Char → Except (List Char) (List Char))
    (prompt text : List Char) (v : JVal) (h1 : call prompt = .ok text)
    (h2 : jsonParse (cleanResp text) = .ok v) :
    get_ai_analysis true call prompt = v := by
  simp [get_ai_analysis, h1, h2]

theorem index_post_eq (md : List Char → List Char)
    (call : List Char → Except (List Char) (List Char)) (form : PostForm) (t : List Char)
    (hb : buildAnswers form.answer form.questions 0 = .ok t) :
    index true md call (some form) =
      renderAnalysis md form.user_story form.context
        (get_ai_analysis true call (composePrompt form.user_story form.context t)) := by
  simp [index, promptOf, hb]

theorem buildAnswersSpec (ans : Nat → Option (List Char)) :
    ∀ (qs : List (List Char)) (i : Nat), (∀ k, k < qs.length → (ans (i + k)).isSome = true) →
      buildAnswers ans qs i = .ok (specAnswerBlocks ans qs i) := by
  intro qs
  induction qs with
  | nil => intro i _; rfl
  | cons q qs ih =>
    intro i h
    have h0 : (ans i).isSome = true := by
      have := h 0 (by simp)
      simpa using this
    obtain ⟨a, ha⟩ := Option.isSome_iff_exists.mp h0
    have hrec := ih (i + 1) (fun k hk => by
      have hx := h (k + 1) (by simpa using Nat.succ_lt_succ hk)
      rw [show i + 1 + k = i + (k + 1) from by omega]
      exact hx)
    simp [buildAnswers, specAnswerBlocks, ha, hrec]

theorem buildAnswersAllEmpty (ans : Nat → Option (List Char)) :
    ∀ (qs : List (List Char)) (i : Nat), (∀ k, k < qs.length → ans (i + k) = some []) →
      buildAnswers ans qs i = .ok [] := by
  intro qs
  induction qs with
  | nil => intro i _; rfl
  | cons q qs ih =>
    intro i h
    have h0 : ans i = some [] := by
      have := h 0 (by simp)
      simpa using this
    have hrec := ih (i + 1) (fun k hk => by
      have hx := h (k + 1) (by simpa using Nat.succ_lt_succ hk)
      rw [show i + 1 + k = i + (k + 1) from by omega]
      exact hx)
    simp [buildAnswers, h0, hrec]

/-! ### Claims -/

/-- C1 counterexample: a model reply that is valid JSON but not an object
(the reply `[]`) makes the request handler raise an uncaught
`AttributeError` (`analysis.get` on a list), so a raw exception does
propagate past the Interpreter boundary, contrary to the claim. -/
theorem claim_C1_counterexample :
    index true id (fun _ => .ok "[]".data) (some ⟨[], [], [], fun _ => none⟩) =
      .error .attributeError := rfl

/-- C1 (amended): for every model-capability outcome that is an exception, a
non-JSON reply, or a valid JSON object reply whose `ticket_draft` value (if
present) is a string, the request handler produces a rendered page: failures
of the call and of JSON parsing are converted to the in-band error dict whose
message carries the underlying cause, and are rendered as the inline error
paragraph; object replies render without an escaping exception. -/
theorem claim_C1 (md : List Char → List Char) (form : PostForm) (t : List Char)
    (hb : buildAnswers form.answer form.questions 0 = .ok t) :
    (∀ e, index true md (fun _ => .error e) (some form) =
        .ok (.page form.user_story form.context
          (errorHtml ("An error occurred: ".data ++ e)) (.arr []))) ∧
    (∀ text e, jsonParse (cleanResp text) = .error e →
        index true md (fun _ => .ok text) (some form) =
        .ok (.page form.user_story form.context
          (errorHtml ("An error occurred: ".data ++ e)) (.arr []))) ∧
    (∀ text fs, jsonParse (cleanResp text) = .ok (.obj fs) →
        (∀ v, dictLookup fs "ticket_draft".data = some v → ∃ s, v = .str s) →
        ∃ r, index true md (fun _ => .ok text) (some form) = .ok r) := by
  refine ⟨?_, ?_, ?_⟩
  · intro e
    rw [index_post_eq md (fun _ => .error e) form t hb,
      get_ai_analysis_callFail (fun _ => .error e)
        (composePrompt form.user_story form.context t) e rfl]
    exact renderAnalysis_errObj md _ _ _
  · intro text e hp
    rw [index_post_eq md (fun _ => .ok text) form t hb,
      get_ai_analysis_parseFail (fun _ => .ok text)
        (composePrompt form.user_story form.context t) text e rfl hp]
    exact renderAnalysis_errObj md _ _ _
  · intro text fs hp htd
    rw [index_post_eq md (fun _ => .ok text) form t hb,
      get_ai_analysis_parsed (fun _ => .ok text)
        (composePrompt form.user_story form.context t) text _ rfl hp]
    cases he : dictLookup fs "error".data with
    | some v => exact ⟨_, renderAnalysis_obj_err md _ _ fs v he⟩
    | none =>
      cases ht : dictLookup fs "ticket_draft".data with
      | none => exact ⟨_, renderAnalysis_obj_noerr md _ _ fs he ht⟩
      | some v =>
        obtain ⟨s, rfl⟩ := htd v ht
        exact ⟨_, renderAnalysis_obj_td md _ _ fs s he ht⟩

/-- C1 witness: a failing call with message `boom` renders the inline error
paragraph carrying that message. -/
theorem claim_C1_witness :
    index true id (fun _ => .error "boom".data)
      (some ⟨"u".data, "c".data, [], fun _ => none⟩) =
      .ok (.page "u".data "c".data (errorHtml "An error occurred: boom".data) (.arr [])) :=
  (claim_C1 id ⟨"u".data, "c".data, [], fun _ => none⟩ [] rfl).1 "boom".data

/-- C2 counterexample: a question whose `answer_i` field is absent from the
form raises `KeyError` (`request.form["answer_0"]`), so the index is not
silently omitted from the prompt — no prompt is composed at all. -/
theorem claim_C2_counterexample :
    promptOf ⟨"us".data, "ctx".data, ["Was?".data], fun _ => none⟩ =
      .error (.keyError "answer_0".data) := rfl

/-- C2 (amended): when every scanned question has its answer field present,
the composed answer text is exactly the spec's block sequence: the
`Question:`/`Answer:` block for index `i` appears iff `answers[i]` is
non-empty, and empty answers are silently dropped.  An absent answer field,
however, raises instead of being dropped. -/
theorem claim_C2 (ans : Nat → Option (List Char)) (qs : List (List Char))
    (h : ∀ k, k < qs.length → (ans k).isSome = true) :
    buildAnswers ans qs 0 = .ok (specAnswerBlocks ans qs 0) :=
  buildAnswersSpec ans qs 0 (by simpa using h)

/-- C2 witness: with one non-empty and one empty answer, exactly the
non-empty block appears. -/
theorem claim_C2_witness :
    buildAnswers (fun i => if i = 0 then some "A0".data else some [])
      ["Q0".data, "Q1".data] 0 = .ok "\n\nQuestion: Q0\nAnswer: A0".data :=
  (claim_C2 (fun i => if i = 0 then some "A0".data else some [])
    ["Q0".data, "Q1".data] (by decide)).trans (by rfl)

/-- C3: when the credential was absent at process start (`model = none`),
every request — GET or POST, whatever the form — renders the fixed
configuration-error message, and the result does not depend on the model
capability, which is therefore never consulted. -/
theorem claim_C3 (md : List Char → List Char)
    (call call' : List Char → Except (List Char) (List Char)) (req : Option PostForm) :
    index false md call req = .ok (.configPage apiKeyMissingMsg) ∧
    index false md call req = index false md call' req := ⟨rfl, rfl⟩

/-- C4 counterexample: a JSON object wrapped in a fence with the language tag
`python` is *not* stripped (only ```` ```json ```` and ```` ``` ```` are
removed), so parsing fails and the Interpreter yields the error dict, not the
parsed AssistantReply. -/
theorem claim_C4_counterexample :
    get_ai_analysis true
      (fun _ => .ok "```python\n\x7b\"ticket_draft\": \"x\"\x7d\n```".data) [] =
      errObj "An error occurred: Expecting value".data := rfl

/-- C4 (amended): for every reply consisting of a JSON document wrapped in a
Markdown code fence whose opening fence is ```` ```json ```` or bare
```` ``` ````, where the document text contains no backtick, the Interpreter
strips both fences and yields exactly the value parsed from the unwrapped
text; in particular Scenario B's reply yields the expected AssistantReply
fields.  Replies fenced with any other language tag fail to parse. -/
theorem claim_C4 :
    (∀ (prompt body : List Char) (v : JVal), (∀ c ∈ body, c ≠ btick) →
        jsonParse ('\n' :: (body ++ ['\n'])) = .ok v →
        get_ai_analysis true
          (fun _ => .ok ("```json\n".data ++ body ++ "\n```".data)) prompt = v ∧
        get_ai_analysis true
          (fun _ => .ok ("```\n".data ++ body ++ "\n```".data)) prompt = v) ∧
    get_ai_analysis true
      (fun _ => .ok "```json\n\x7b\"ticket_draft\":\"x\",\"clarifying_questions\":[\"Q1?\"],\"open_questions\":[]\x7d\n```".data)
      [] =
      .obj [("ticket_draft".data, .str "x".data),
            ("clarifying_questions".data, .arr [.str "Q1?".data]),
            ("open_questions".data, .arr [])] := by
  constructor
  · intro prompt body v hb hp
    constructor
    · apply get_ai_analysis_parsed _ _ _ _ rfl
      rw [cleanWrapJson body hb]
      exact hp
    · apply get_ai_analysis_parsed _ _ _ _ rfl
      rw [cleanWrapBare body hb]
      exact hp
  · rfl

/-- C4 witness: a fenced `\x7b"a": 1\x7d` object is unwrapped and parsed. -/
theorem claim_C4_witness :
    get_ai_analysis true
      (fun _ => .ok ("```json\n".data ++ "\x7b\"a\": 1\x7d".data ++ "\n```".data)) [] =
      .obj [("a".data, JVal.num "1".data)] :=
  (claim_C4.1 [] "\x7b\"a\": 1\x7d".data (.obj [("a".data, JVal.num "1".data)])
    (by decide) (by rfl)).1

/-- C5 counterexample: the reply `\x7b"error": "boom"\x7d` parses as valid JSON
lacking all three expected keys, yet the handler renders the inline error
branch instead of substituting defaults. -/
theorem claim_C5_counterexample :
    jsonParse (cleanResp "\x7b\"error\": \"boom\"\x7d".data) =
      .ok (.obj [("error".data, .str "boom".data)]) ∧
    index true id (fun _ => .ok "\x7b\"error\": \"boom\"\x7d".data)
      (some ⟨[], [], [], fun _ => none⟩) =
      .ok (.page [] [] (errorHtml "boom".data) (.arr [])) ∧
    errorHtml "boom".data ≠ id [] :=
  ⟨rfl, rfl, by decide⟩

/-- C5 (amended): for every reply parsing as a JSON *object* that contains no
`error` key and whose `ticket_draft`, when present, is text, no error is
raised and missing expected keys are tolerated with defaults: the render
succeeds with `ticket_draft` defaulting to the empty draft when absent (and
used as-is when present), `clarifying_questions` defaulting to the empty
sequence when absent (and stored as-is when present), and `open_questions` is
never read, so its presence or absence cannot affect the result (covering the
Scenario E shape, an object with a draft but without `open_questions`). -/
theorem claim_C5 :
    (∀ (md : List Char → List Char) (us ctx text : List Char)
        (fs : List (List Char × JVal)),
        jsonParse (cleanResp text) = .ok (.obj fs) →
        dictLookup fs "error".data = none →
        dictLookup fs "ticket_draft".data = none →
        index true md (fun _ => .ok text) (some ⟨us, ctx, [], fun _ => none⟩) =
          .ok (.page us ctx (md [])
            ((dictLookup fs "clarifying_questions".data).getD (.arr [])))) ∧
    (∀ (md : List Char → List Char) (us ctx text : List Char)
        (fs : List (List Char × JVal)) (s : List Char),
        jsonParse (cleanResp text) = .ok (.obj fs) →
        dictLookup fs "error".data = none →
        dictLookup fs "ticket_draft".data = some (.str s) →
        index true md (fun _ => .ok text) (some ⟨us, ctx, [], fun _ => none⟩) =
          .ok (.page us ctx (md s)
            ((dictLookup fs "clarifying_questions".data).getD (.arr [])))) ∧
    (∀ (md : List Char → List Char) (us ctx : List Char)
        (fs : List (List Char × JVal)) (v : JVal),
        renderAnalysis md us ctx (.obj (fs ++ [("open_questions".data, v)])) =
          renderAnalysis md us ctx (.obj fs)) := by
  refine ⟨?_, ?_, ?_⟩
  · intro md us ctx text fs hp he ht
    rw [index_post_eq md (fun _ => .ok text) ⟨us, ctx, [], fun _ => none⟩ [] rfl,
      get_ai_analysis_parsed (fun _ => .ok text) (composePrompt us ctx []) text _ rfl hp]
    exact renderAnalysis_obj_noerr md us ctx fs he ht
  · intro md us ctx text fs s hp he ht
    rw [index_post_eq md (fun _ => .ok text) ⟨us, ctx, [], fun _ => none⟩ [] rfl,
      get_ai_analysis_parsed (fun _ => .ok text) (composePrompt us ctx []) text _ rfl hp]
    exact renderAnalysis_obj_td md us ctx fs s he ht
  · intro md us ctx fs v
    have h1 := dictLookup_appendOther "open_questions".data v "error".data (by decide) fs
    have h2 := dictLookup_appendOther "open_questions".data v "ticket_draft".data (by decide) fs
    have h3 := dictLookup_appendOther "open_questions".data v "clarifying_questions".data
      (by decide) fs
    have hc : dictContains (fs ++ [("open_questions".data, v)]) "error".data =
        dictContains fs "error".data := by
      rw [dictContainsCorrect, dictContainsCorrect, h1]
    cases hcb : dictContains fs "error".data with
    | true => simp [renderAnalysis, pyIn, hc, hcb, pyGetItem, h1]
    | false => simp [renderAnalysis, pyIn, hc, hcb, pyDictGet, h2, h3]

/-- C5 witness: the Scenario E shape — a reply with a draft and questions but
no `open_questions` key — renders the draft and questions without error. -/
theorem claim_C5_witness :
    index true id
      (fun _ => .ok "\x7b\"ticket_draft\":\"x\",\"clarifying_questions\":[\"Q1?\"]\x7d".data)
      (some ⟨"u".data, "c".data, [], fun _ => none⟩) =
      .ok (.page "u".data "c".data "x".data (.arr [.str "Q1?".data])) :=
  claim_C5.2.1 id "u".data "c".data
    "\x7b\"ticket_draft\":\"x\",\"clarifying_questions\":[\"Q1?\"]\x7d".data
    [("ticket_draft".data, JVal.str "x".data),
     ("clarifying_questions".data, JVal.arr [JVal.str "Q1?".data])]
    "x".data rfl rfl rfl

/-- C6 counterexample: with prior questions and all answers *absent*, the
request raises `KeyError` instead of producing the same output as a
no-questions request (which succeeds), so the all-absent half of the
round-trip claim fails. -/
theorem claim_C6_counterexample :
    promptOf ⟨"u".data, "c".data, ["Q1?".data, "Q2?".data], fun _ => none⟩ =
      .error (.keyError "answer_0".data) ∧
    promptOf ⟨"u".data, "c".data, [], fun _ => none⟩ =
      .ok "User Story: u\n\nContext/Brain Dump:\nc".data := ⟨rfl, rfl⟩

/-- C6 (amended): feeding any question sequence back with all-*empty* answers
composes exactly the same prompt as having no prior questions: no block and
no separator header is appended. -/
theorem claim_C6 (us ctx : List Char) (qs : List (List Char))
    (ans : Nat → Option (List Char)) (h : ∀ k, k < qs.length → ans k = some []) :
    promptOf ⟨us, ctx, qs, ans⟩ = promptOf ⟨us, ctx, [], ans⟩ := by
  have hb : buildAnswers ans qs 0 = .ok [] := buildAnswersAllEmpty ans qs 0 (by simpa using h)
  simp [promptOf, hb, buildAnswers]

/-- C6 witness: two questions with empty answers produce the same prompt as
no questions. -/
theorem claim_C6_witness :
    promptOf ⟨"u2".data, "c2".data, ["Qa".data, "Qb".data], fun _ => some []⟩ =
      promptOf ⟨"u2".data, "c2".data, [], fun _ => some []⟩ :=
  claim_C6 "u2".data "c2".data ["Qa".data, "Qb".data] (fun _ => some []) (by decide)

/-- C7: Scenario A — for the story `As a user, I want password reset` with
empty context and no prior questions, the composed prompt is exactly
`User Story: As a user, I want password reset\n\nContext/Brain Dump:\n`. -/
theorem claim_C7 (ans : Nat → Option (List Char)) :
    promptOf ⟨"As a user, I want password reset".data, [], [], ans⟩ =
      .ok "User Story: As a user, I want password reset\n\nContext/Brain Dump:\n".data := rfl

/-- C8: a reply free of code fences is untouched by the fence-stripping step,
so it parses identically with or without stripping. -/
theorem claim_C8 (s : List Char) (h : hasSub fence s = false) :
    stripFences s = s ∧ jsonParse (stripFences s) = jsonParse s := by
  have hj : hasSub fenceJson s = false := by
    cases hq : hasSub fenceJson s with
    | false => rfl
    | true =>
      rw [fenceJson_split] at hq
      rw [hasSubMono fence "json".data s hq] at h
      exact absurd h (by simp)
  have h1 : stripFences s = s := by
    unfold stripFences
    rw [pyReplace_noSub _ _ _ hj, pyReplace_noSub _ _ _ h]
  exact ⟨h1, by rw [h1]⟩

/-- C8 witness: a fence-free object string is left unchanged by stripping. -/
theorem claim_C8_witness :
    stripFences "\x7b\"a\": 1\x7d".data = "\x7b\"a\": 1\x7d".data :=
  (claim_C8 "\x7b\"a\": 1\x7d".data (by decide)).1

/-- C9: whenever the model reply parses as a JSON object containing an
`error` key, the handler renders the inline error branch showing that key's
value instead of a ticket draft, although call and parse both succeeded. -/
theorem claim_C9 (md : List Char → List Char) (us ctx text : List Char)
    (fs : List (List Char × JVal)) (v : JVal)
    (h1 : jsonParse (cleanResp text) = .ok (.obj fs))
    (h2 : dictLookup fs "error".data = some v) :
    index true md (fun _ => .ok text) (some ⟨us, ctx, [], fun _ => none⟩) =
      .ok (.page us ctx (errorHtml (pyStr v)) (.arr [])) := by
  rw [index_post_eq md (fun _ => .ok text) ⟨us, ctx, [], fun _ => none⟩ [] rfl,
    get_ai_analysis_parsed (fun _ => .ok text) (composePrompt us ctx []) text _ rfl h1]
  exact renderAnalysis_obj_err md us ctx fs v h2

/-- C9 witness: the reply `\x7b"error": "x"\x7d` renders the error paragraph
with message `x`. -/
theorem claim_C9_witness :
    index true id (fun _ => .ok "\x7b\"error\": \"x\"\x7d".data)
      (some ⟨"u".data, "c".data, [], fun _ => none⟩) =
      .ok (.page "u".data "c".data (errorHtml "x".data) (.arr [])) :=
  claim_C9 id "u".data "c".data "\x7b\"error\": \"x\"\x7d".data
    [("error".data, JVal.str "x".data)] (JVal.str "x".data) rfl rfl

/-- C10: fence removal is global — the cleaned text never contains
```` ``` ```` or ```` ```json ```` anywhere, and in particular a
`ticket_draft` value that legitimately contains fences is parsed with those
substrings deleted from the value (while parsing the raw reply directly
keeps them). -/
theorem claim_C10 :
    (∀ s, hasSub fence (cleanResp s) = false ∧ hasSub fenceJson (cleanResp s) = false) ∧
    get_ai_analysis true
      (fun _ => .ok "\x7b\"ticket_draft\":\"use ```json here and ``` there\",\"clarifying_questions\":[],\"open_questions\":[]\x7d".data)
      [] =
      .obj [("ticket_draft".data, .str "use  here and  there".data),
            ("clarifying_questions".data, .arr []),
            ("open_questions".data, .arr [])] ∧
    jsonParse "\x7b\"ticket_draft\":\"use ```json here and ``` there\",\"clarifying_questions\":[],\"open_questions\":[]\x7d".data =
      .ok (.obj [("ticket_draft".data, .str "use ```json here and ``` there".data),
                 ("clarifying_questions".data, .arr []),
                 ("open_questions".data, .arr [])]) := by
  refine ⟨fun s => ?_, rfl, rfl⟩
  unfold cleanResp
  exact stripFencesNoFence (pyStrip s)

end PRD
